import Mathlib

/-!
Shallow embedding of the schema-management module `cqlengine/management.py`
(create_keyspace, delete_keyspace, create_table, delete_table) and proofs of
the specification's claims about it.

Modelling conventions:
  - The remote cluster catalog is an explicit `ClusterState` (keyspace names,
    column-family names per keyspace, index names per keyspace-key); the
    metadata SELECTs of the source become pure lookups on this state.
  - Every executed DDL statement is recorded, in order, in an `issued` trace;
    a raised CQLEngineException (the spec's `SchemaError`) is an explicit
    error value.
  - Python dicts become association lists with Python's update/override
    semantics; `json.dumps(...).replace('"', "'")` becomes `dumpMap`.
  - The outcome of executing the CREATE TABLE statement (which the source
    wraps in try/except) is an explicit oracle argument `createResult`:
    `none` for success, `some msg` for a CQLEngineException with message msg.
-/

/-- Python's `sep.join(xs)`. -/
def joinSep (sep : String) : List String → String
  | [] => ""
  | [x] => x
  | x :: y :: ys => x ++ sep ++ joinSep sep (y :: ys)

/-- `needle in hay` on strings (Python's `in` operator on str). -/
def strContains (hay needle : String) : Prop := needle.data <:+: hay.data

instance (hay needle : String) : Decidable (strContains hay needle) :=
  inferInstanceAs (Decidable (needle.data <:+: hay.data))

/-- The string s ends with the given suffix. -/
def strEndsWith (s suffix : String) : Prop := suffix.data <:+ s.data

instance (s suffix : String) : Decidable (strEndsWith s suffix) :=
  inferInstanceAs (Decidable (suffix.data <:+ s.data))

/-- A JSON-style value appearing in the replication map: the source passes
strings (strategy class) and integers (replication factors). -/
inductive JsonVal where
  | str (s : String)
  | num (n : Int)
deriving DecidableEq, Repr

/-- Rendering of one value by `json.dumps` followed by `.replace('"', "'")`:
strings get single quotes, integers are bare. -/
def dumpVal : JsonVal → String
  | JsonVal.str s => "\x27" ++ s ++ "\x27"
  | JsonVal.num n => toString n

/-- Python dict assignment `m[k] = v`: overrides an existing binding of `k`
in place, otherwise appends a new binding. -/
def dictInsert (m : List (String × JsonVal)) (k : String) (v : JsonVal) :
    List (String × JsonVal) :=
  if m.any (fun p => p.1 = k) then
    m.map (fun p => if p.1 = k then (k, v) else p)
  else
    m ++ [(k, v)]

/-- Python `dict.update`: later entries override conflicting keys. -/
def dictUpdate (m extras : List (String × JsonVal)) : List (String × JsonVal) :=
  extras.foldl (fun acc p => dictInsert acc p.1 p.2) m

/-- Python dict lookup `m.get(k)`. -/
def dictGet (m : List (String × JsonVal)) (k : String) : Option JsonVal :=
  (m.find? (fun p => p.1 = k)).map (fun p => p.2)

/-- `json.dumps(m).replace('"', "'")` over the association list, in insertion
order. -/
def dumpMap (m : List (String × JsonVal)) : String :=
  "\x7b" ++ joinSep ", " (m.map (fun p => "\x27" ++ p.1 ++ "\x27: " ++ dumpVal p.2)) ++ "\x7d"

/-- The replication configuration dict built by `create_keyspace`
(management.py lines 23-27): class and factor, then the extra keyword
values merged in. -/
def replication_map (strategy_class : String) (replication_factor : Int)
    (replication_values : List (String × JsonVal)) : List (String × JsonVal) :=
  dictUpdate
    [("class", JsonVal.str strategy_class),
     ("replication_factor", JsonVal.num replication_factor)]
    replication_values

/-- The literal CREATE KEYSPACE statement composed by `create_keyspace`
(management.py lines 29-35), whitespace of the Python triple-quoted string
included, with the DURABLE_WRITES clause appended exactly when the strategy
class is not SimpleStrategy. -/
def ck_query (name strategy_class : String) (replication_factor : Int)
    (durable_writes : Bool) (replication_values : List (String × JsonVal)) : String :=
  let q := "\n            CREATE KEYSPACE " ++ name
    ++ "\n            WITH REPLICATION = "
    ++ dumpMap (replication_map strategy_class replication_factor replication_values)
    ++ "\n            "
  if strategy_class ≠ "SimpleStrategy" then
    q ++ " AND DURABLE_WRITES = " ++ (if durable_writes then "true" else "false")
  else q

/-- Point-in-time catalog of the remote cluster: keyspace names, (keyspace,
column-family-name) pairs, and (keyspace-key, index-name) pairs as returned
by the three metadata SELECTs of the source. -/
structure ClusterState where
  keyspaces : List String
  columnFamilies : List (String × String)
  indexInfo : List (String × String)
deriving DecidableEq, Repr

/-- The metadata read `SELECT columnfamily_name from system.schema_columnfamilies
WHERE keyspace_name = ks`. -/
def ksTables (st : ClusterState) (ks : String) : List String :=
  (st.columnFamilies.filter (fun p => p.1 = ks)).map (fun p => p.2)

/-- The metadata read `SELECT index_name from system."IndexInfo" WHERE
table_name = ks` (the source passes the keyspace name as the key). -/
def ksIndexNames (st : ClusterState) (ks : String) : List String :=
  (st.indexInfo.filter (fun p => p.1 = ks)).map (fun p => p.2)

/-- `create_keyspace` (management.py lines 9-37): reads the keyspace names; if
`name` is absent, composes and executes the CREATE KEYSPACE statement
(which adds the keyspace to the catalog); otherwise does nothing. Returns
the resulting cluster state and the list of issued DDL statements. -/
def create_keyspace (st : ClusterState) (name strategy_class : String)
    (replication_factor : Int) (durable_writes : Bool)
    (replication_values : List (String × JsonVal)) : ClusterState × List String :=
  if name ∈ st.keyspaces then (st, [])
  else
    ({ st with keyspaces := st.keyspaces ++ [name] },
     [ck_query name strategy_class replication_factor durable_writes replication_values])

/-- `create_keyspace(name)` with all arguments left at the Python defaults
(`strategy_class='SimpleStrategy'`, `replication_factor=3`,
`durable_writes=True`, no extra replication values), as called from
`create_table` line 59. -/
def create_keyspace_defaults (st : ClusterState) (name : String) :
    ClusterState × List String :=
  create_keyspace st name "SimpleStrategy" 3 true []

/-- `delete_keyspace` (management.py lines 40-44): reads the keyspace names;
executes DROP KEYSPACE only when the name is present. -/
def delete_keyspace (st : ClusterState) (name : String) : ClusterState × List String :=
  if name ∈ st.keyspaces then
    ({ keyspaces := st.keyspaces.erase name,
       columnFamilies := st.columnFamilies.filter (fun p => p.1 ≠ name),
       indexInfo := st.indexInfo.filter (fun p => p.1 ≠ name) },
     ["DROP KEYSPACE " ++ name])
  else (st, [])

/-- One column descriptor as consumed from the model layer (management.py
uses: `db_field_name`, `get_column_def()` (kept here as the opaque string
`column_def`), `primary_key`, `partition_key`, `index`, `clustering_order`). -/
structure Column where
  db_field_name : String
  column_def : String
  primary_key : Bool
  partition_key : Bool
  index : Bool
  clustering_order : Option String
deriving DecidableEq, Repr

/-- The model-layer table descriptor as consumed by management.py:
`__abstract__`, `column_family_name()` (with and without keyspace),
`_get_keyspace()`, the ordered `_columns` values, the formatted
`__read_repair_chance__`, and the separate ordered `_clustering_keys`
values (the spec lists all of these as inputs from the excluded model
layer). -/
structure Model where
  abstract : Bool
  cf_name : String
  raw_cf_name : String
  keyspace : String
  columns : List Column
  read_repair_chance : String
  clustering_keys : List Column
deriving DecidableEq, Repr

/-- The `add_column` accumulation loop of `create_table` (management.py lines
75-85): walks the columns in declaration order and collects the
double-quoted db field names of the primary-key columns, partition keys
into the first list and the remaining (clustering) keys into the second. -/
def build_keys (cols : List Column) : List String × List String :=
  cols.foldl
    (fun acc col =>
      if col.primary_key then
        if col.partition_key then
          (acc.1 ++ ["\x22" ++ col.db_field_name ++ "\x22"], acc.2)
        else
          (acc.1, acc.2 ++ ["\x22" ++ col.db_field_name ++ "\x22"])
      else acc)
    ([], [])

/-- The PRIMARY KEY fragment appended to the column types (management.py line
87): parenthesized partition-key tuple, then the clustering keys when any
exist. -/
def primaryKeyClause (m : Model) : String :=
  let keys := build_keys m.columns
  "PRIMARY KEY ((" ++ joinSep ", " keys.1 ++ ")"
    ++ (if keys.2.isEmpty then "" else ", " ++ joinSep ", " keys.2) ++ ")"

/-- Python's `x or 'ASC'` on the clustering-order attribute: None and the
empty string are falsy and fall back to ASC. -/
def orAsc : Option String → String
  | none => "ASC"
  | some s => if s.isEmpty then "ASC" else s

/-- The `_order` terms (management.py line 93): one `<field> <order>` term per
clustering key, in order. -/
def clusteringOrderTerms (m : Model) : List String :=
  m.clustering_keys.map (fun c => c.db_field_name ++ " " ++ orAsc c.clustering_order)

/-- The `with_qs` list (management.py lines 91-95): always the
read_repair_chance term, plus the clustering-order term when `_order` is
nonempty (i.e. when the model has any clustering key at all). -/
def with_qs (m : Model) : List String :=
  ["read_repair_chance = " ++ m.read_repair_chance]
    ++ (if (clusteringOrderTerms m).isEmpty then []
        else ["clustering order by (" ++ joinSep ", " (clusteringOrderTerms m) ++ ")"])

/-- The full CREATE TABLE statement composed by `create_table` (management.py
lines 72-99): name, parenthesized column definitions with the PRIMARY KEY
fragment last, then the WITH clauses joined by AND. -/
def createTableStatement (m : Model) : String :=
  let qtypes := (m.columns.map (fun c => c.column_def)) ++ [primaryKeyClause m]
  "CREATE TABLE " ++ m.cf_name ++ " (" ++ joinSep ", " qtypes ++ ") WITH "
    ++ joinSep " AND " (with_qs m)

/-- The deterministic secondary-index name (management.py line 122). -/
def indexName (m : Model) (c : Column) : String :=
  "index_" ++ m.raw_cf_name ++ "_" ++ c.db_field_name

/-- The CREATE INDEX statement for one column (management.py lines 125-128). -/
def createIndexStatement (m : Model) (c : Column) : String :=
  "CREATE INDEX " ++ indexName m c ++ " ON " ++ m.cf_name
    ++ " (\x22" ++ c.db_field_name ++ "\x22)"

/-- The index pass of `create_table` (management.py lines 117-130): for every
column flagged indexed, in declaration order, skip it when an index named
`<bare table>.<index name>` already appears in the snapshot of existing
index names, otherwise issue the CREATE INDEX statement. -/
def index_statements (m : Model) (idx_names : List String) : List String :=
  (m.columns.filter (fun c => c.index)).filterMap
    (fun c =>
      if (m.raw_cf_name ++ "." ++ indexName m c) ∈ idx_names then none
      else some (createIndexStatement m c))

/-- The qualified names (`<bare table>.<index name>`) of the indexes the
index pass creates, i.e. of the statements of `index_statements`. -/
def created_index_names (m : Model) (idx_names : List String) : List String :=
  (m.columns.filter (fun c => c.index)).filterMap
    (fun c =>
      if (m.raw_cf_name ++ "." ++ indexName m c) ∈ idx_names then none
      else some (m.raw_cf_name ++ "." ++ indexName m c))

/-- Result of a `create_table` call: the cluster state at return or raise
time, the DDL statements issued (sent for execution) in order, and the
message of the raised CQLEngineException (the spec's SchemaError) if any. -/
structure TableResult where
  state : ClusterState
  issued : List String
  err : Option String
deriving DecidableEq, Repr

/-- Shared tail of every non-raising `create_table` path: run the index pass
against the current index-name snapshot for the model's keyspace, record
its statements after `trace`, and add the created indexes to the catalog. -/
def finish_index_pass (m : Model) (st : ClusterState) (trace : List String) : TableResult :=
  let idx_names := ksIndexNames st m.keyspace
  { state := { st with indexInfo := st.indexInfo
      ++ (created_index_names m idx_names).map (fun n => (m.keyspace, n)) },
    issued := trace ++ index_statements m idx_names,
    err := none }

/-- `create_table` (management.py lines 47-130). `createResult` is the
outcome of executing the CREATE TABLE statement: `none` on success,
`some msg` when the database rejects it with message `msg` (it is unused
when that statement is never executed). The abstract check precedes every
metadata read and every DDL statement; keyspace creation (when requested)
uses the Python defaults; the CREATE TABLE statement is executed only when
the bare name is absent from the column-family metadata, and a failure is
swallowed exactly when its message contains the known already-exists text;
the index pass then issues the statements of `index_statements` against
the pre-read index-name snapshot. -/
def create_table (m : Model) (st : ClusterState) (createResult : Option String)
    (create_missing_keyspace : Bool) : TableResult :=
  if m.abstract then
    { state := st, issued := [], err := some "cannot create table from abstract model" }
  else
    let ks_name := m.keyspace
    let ksRes := if create_missing_keyspace then create_keyspace_defaults st ks_name
                 else (st, [])
    let st1 := ksRes.1
    let trace0 := ksRes.2
    let tables := ksTables st1 ks_name
    if m.raw_cf_name ∈ tables then
      finish_index_pass m st1 trace0
    else
      let qs := createTableStatement m
      match createResult with
      | none =>
        let st2 := { st1 with columnFamilies :=
          st1.columnFamilies ++ [(ks_name, m.raw_cf_name)] }
        finish_index_pass m st2 (trace0 ++ [qs])
      | some msg =>
        if strContains msg "Cannot add already existing column family" then
          finish_index_pass m st1 (trace0 ++ [qs])
        else
          { state := st1, issued := trace0 ++ [qs], err := some msg }

/-- `delete_table` (management.py lines 133-150): reads the column-family
names for the model's keyspace; returns silently when the bare name is
absent; otherwise executes the DROP TABLE statement. -/
def delete_table (m : Model) (st : ClusterState) : ClusterState × List String :=
  let ks_name := m.keyspace
  let tables := ksTables st ks_name
  if m.raw_cf_name ∈ tables then
    ({ st with columnFamilies :=
        st.columnFamilies.filter (fun p => ¬(p.1 = ks_name ∧ p.2 = m.raw_cf_name)) },
     ["drop table " ++ m.cf_name ++ ";"])
  else (st, [])

/-- Example column fixtures used by the concrete witnesses and
counterexamples below: a users table with partition key pk1, clustering
keys ck1 and ck2 (default order), and an indexed value column. -/
def pk1Col : Column :=
  { db_field_name := "pk1", column_def := "\x22pk1\x22 text", primary_key := true,
    partition_key := true, index := false, clustering_order := none }

/-- Clustering-key column ck1, default (unset) clustering order. -/
def ck1Col : Column :=
  { db_field_name := "ck1", column_def := "\x22ck1\x22 text", primary_key := true,
    partition_key := false, index := false, clustering_order := none }

/-- Clustering-key column ck2, default (unset) clustering order. -/
def ck2Col : Column :=
  { db_field_name := "ck2", column_def := "\x22ck2\x22 text", primary_key := true,
    partition_key := false, index := false, clustering_order := none }

/-- Indexed non-key column. -/
def valCol : Column :=
  { db_field_name := "val", column_def := "\x22val\x22 text", primary_key := false,
    partition_key := false, index := true, clustering_order := none }

/-- Concrete non-abstract model fixture. -/
def usersModel : Model :=
  { abstract := false, cf_name := "ks.users", raw_cf_name := "users", keyspace := "ks",
    columns := [pk1Col, ck1Col, ck2Col, valCol], read_repair_chance := "0.1",
    clustering_keys := [ck1Col, ck2Col] }

/-- Concrete abstract model fixture. -/
def abstractModel : Model :=
  { abstract := true, cf_name := "ks.base", raw_cf_name := "base", keyspace := "ks",
    columns := [pk1Col], read_repair_chance := "0.1", clustering_keys := [] }

/-- Cluster with no keyspaces, tables or indexes. -/
def emptyCluster : ClusterState := { keyspaces := [], columnFamilies := [], indexInfo := [] }

/-- Spec-side form of the PRIMARY KEY fragment (amended claim C1): the
partition-key columns first, in declaration order, as a parenthesized
tuple, followed by the clustering-key columns in declaration order, every
column name rendered in double quotes. Stated independently of the
`build_keys` loop so the emitted clause can be compared against it. -/
def specPrimaryKeyClause (m : Model) : String :=
  let pks := (m.columns.filter (fun c => c.primary_key && c.partition_key)).map
    (fun c => "\x22" ++ c.db_field_name ++ "\x22")
  let cks := (m.columns.filter (fun c => c.primary_key && !c.partition_key)).map
    (fun c => "\x22" ++ c.db_field_name ++ "\x22")
  "PRIMARY KEY ((" ++ joinSep ", " pks ++ ")"
    ++ (if cks.isEmpty then "" else ", " ++ joinSep ", " cks) ++ ")"

theorem strData_append (s t : String) : (s ++ t).data = s.data ++ t.data := by
  cases s; cases t; rfl

theorem strExt {s t : String} (h : s.data = t.data) : s = t := by
  cases s
  cases t
  exact congrArg String.mk h

theorem strAppend_assoc (a b c : String) : a ++ b ++ c = a ++ (b ++ c) := by
  apply strExt
  simp [strData_append]

theorem joinSep_append_single (sep : String) (xs : List String) (c : String) :
    joinSep sep (xs ++ [c]) = if xs.isEmpty then c else joinSep sep xs ++ sep ++ c := by
  induction xs with
  | nil => rfl
  | cons x ys ih =>
    cases ys with
    | nil => rfl
    | cons y zs =>
      simp only [List.cons_append, List.append_eq, joinSep] at ih ⊢
      rw [ih]
      simp only [List.isEmpty_cons, Bool.false_eq_true, if_false]
      apply strExt
      simp [strData_append]

theorem strContains_of_data {hay mid : String} (pre post : List Char)
    (h : hay.data = pre ++ mid.data ++ post) : strContains hay mid := by
  unfold strContains
  rw [h]
  exact List.infix_append pre mid.data post

theorem strEndsWith_append (a b : String) : strEndsWith (a ++ b) b := by
  unfold strEndsWith
  rw [strData_append]
  exact List.suffix_append a.data b.data

theorem create_keyspace_mem (st : ClusterState) (name sc : String) (rf : Int)
    (dw : Bool) (ex : List (String × JsonVal)) (h : name ∈ st.keyspaces) :
    create_keyspace st name sc rf dw ex = (st, []) := by
  unfold create_keyspace
  rw [if_pos h]

theorem create_keyspace_not_mem (st : ClusterState) (name sc : String) (rf : Int)
    (dw : Bool) (ex : List (String × JsonVal)) (h : name ∉ st.keyspaces) :
    create_keyspace st name sc rf dw ex =
      ({ st with keyspaces := st.keyspaces ++ [name] }, [ck_query name sc rf dw ex]) := by
  unfold create_keyspace
  rw [if_neg h]

theorem columnFamilies_create_keyspace (st : ClusterState) (n sc : String) (rf : Int)
    (dw : Bool) (ex : List (String × JsonVal)) :
    (create_keyspace st n sc rf dw ex).1.columnFamilies = st.columnFamilies := by
  unfold create_keyspace
  split <;> rfl

theorem indexInfo_create_keyspace (st : ClusterState) (n sc : String) (rf : Int)
    (dw : Bool) (ex : List (String × JsonVal)) :
    (create_keyspace st n sc rf dw ex).1.indexInfo = st.indexInfo := by
  unfold create_keyspace
  split <;> rfl

theorem ksTables_congr {st st' : ClusterState} (ks : String)
    (h : st'.columnFamilies = st.columnFamilies) : ksTables st' ks = ksTables st ks := by
  unfold ksTables
  rw [h]

theorem ksIndexNames_congr {st st' : ClusterState} (ks : String)
    (h : st'.indexInfo = st.indexInfo) : ksIndexNames st' ks = ksIndexNames st ks := by
  unfold ksIndexNames
  rw [h]

/-- C2: for every model marked abstract, create_table raises the
CQLEngineException (the spec's SchemaError) with the abstract-model
message, regardless of cluster state, of the createResult oracle and of
the create_missing_keyspace argument, issuing no DDL statement and
leaving the cluster state unchanged. -/
theorem create_table_abstract_raises (m : Model) (st : ClusterState)
    (cr : Option String) (cmk : Bool) (h : m.abstract = true) :
    create_table m st cr cmk =
      { state := st, issued := [], err := some "cannot create table from abstract model" } := by
  unfold create_table
  rw [h]
  rfl

/-- Witness for C2 at a concrete abstract model and nonempty cluster. -/
theorem create_table_abstract_raises_witness :
    create_table abstractModel { keyspaces := ["ks"], columnFamilies := [("ks", "base")], indexInfo := [] } none true =
      { state := { keyspaces := ["ks"], columnFamilies := [("ks", "base")], indexInfo := [] },
        issued := [], err := some "cannot create table from abstract model" } :=
  create_table_abstract_raises abstractModel _ none true (by rfl)

/-- C8: deleting a keyspace absent from the keyspace metadata and deleting a
table whose bare name is absent from the column-family metadata are both
silent no-ops: no DDL statement is issued, no error raised, and the
catalog state is returned unchanged. -/
theorem delete_missing_noop (st : ClusterState) (name : String) (m : Model)
    (h1 : name ∉ st.keyspaces) (h2 : m.raw_cf_name ∉ ksTables st m.keyspace) :
    delete_keyspace st name = (st, []) ∧ delete_table m st = (st, []) := by
  constructor
  · unfold delete_keyspace
    simp [h1]
  · unfold delete_table
    simp [h2]

/-- Witness for C8 at a concrete cluster holding an unrelated keyspace. -/
theorem delete_missing_noop_witness :
    delete_keyspace { keyspaces := ["other"], columnFamilies := [], indexInfo := [] } "ks" =
      ({ keyspaces := ["other"], columnFamilies := [], indexInfo := [] }, []) ∧
    delete_table usersModel { keyspaces := ["other"], columnFamilies := [], indexInfo := [] } =
      ({ keyspaces := ["other"], columnFamilies := [], indexInfo := [] }, []) :=
  delete_missing_noop _ "ks" usersModel (by decide) (by decide)

/-- C9: create_keyspace is idempotent: starting from a duplicate-free
keyspace catalog, running it twice with the same arguments leaves exactly
one keyspace of that name, and the second run issues no statement and
does not change the state further. -/
theorem create_keyspace_idempotent (st : ClusterState) (name sc : String) (rf : Int)
    (dw : Bool) (extras : List (String × JsonVal)) (hnd : st.keyspaces.Nodup) :
    (create_keyspace (create_keyspace st name sc rf dw extras).1 name sc rf dw extras).2 = [] ∧
    (create_keyspace (create_keyspace st name sc rf dw extras).1 name sc rf dw extras).1 =
      (create_keyspace st name sc rf dw extras).1 ∧
    (create_keyspace st name sc rf dw extras).1.keyspaces.count name = 1 := by
  by_cases h : name ∈ st.keyspaces
  · rw [create_keyspace_mem st name sc rf dw extras h]
    rw [create_keyspace_mem st name sc rf dw extras h]
    exact ⟨rfl, rfl, List.count_eq_one_of_mem hnd h⟩
  · rw [create_keyspace_not_mem st name sc rf dw extras h]
    have hmem : name ∈ ({ st with keyspaces := st.keyspaces ++ [name] } : ClusterState).keyspaces := by
      simp
    rw [create_keyspace_mem _ name sc rf dw extras hmem]
    refine ⟨rfl, rfl, ?_⟩
    simp [List.count_append, List.count_eq_zero_of_not_mem h]

/-- Witness for C9 at a concrete empty cluster. -/
theorem create_keyspace_idempotent_witness :
    (create_keyspace (create_keyspace emptyCluster "ks" "SimpleStrategy" 3 true []).1
        "ks" "SimpleStrategy" 3 true []).2 = [] ∧
    (create_keyspace (create_keyspace emptyCluster "ks" "SimpleStrategy" 3 true []).1
        "ks" "SimpleStrategy" 3 true []).1 =
      (create_keyspace emptyCluster "ks" "SimpleStrategy" 3 true []).1 ∧
    (create_keyspace emptyCluster "ks" "SimpleStrategy" 3 true []).1.keyspaces.count "ks" = 1 :=
  create_keyspace_idempotent emptyCluster "ks" "SimpleStrategy" 3 true [] (by decide)

theorem ck_query_simple (name : String) (rf : Int) (dw : Bool)
    (ex : List (String × JsonVal)) :
    ck_query name "SimpleStrategy" rf dw ex =
      "\n            CREATE KEYSPACE " ++ name ++ "\n            WITH REPLICATION = "
        ++ dumpMap (replication_map "SimpleStrategy" rf ex) ++ "\n            " := by
  unfold ck_query
  simp

theorem ck_query_other (name sc : String) (rf : Int) (dw : Bool)
    (ex : List (String × JsonVal)) (hsc : sc ≠ "SimpleStrategy") :
    ck_query name sc rf dw ex =
      ("\n            CREATE KEYSPACE " ++ name ++ "\n            WITH REPLICATION = "
        ++ dumpMap (replication_map sc rf ex) ++ "\n            ")
        ++ (" AND DURABLE_WRITES = " ++ (if dw then "true" else "false")) := by
  unfold ck_query
  rw [if_pos hsc]
  rw [strAppend_assoc]

theorem ck_query_simple_tail (name : String) (rf : Int) (dw : Bool)
    (ex : List (String × JsonVal)) :
    strEndsWith (ck_query name "SimpleStrategy" rf dw ex) "\n            " := by
  rw [ck_query_simple]
  exact strEndsWith_append _ _

theorem not_durable_of_tail {q : String} (hq : strEndsWith q "\n            ") (dw : Bool) :
    ¬ strEndsWith q (" AND DURABLE_WRITES = " ++ (if dw then "true" else "false")) := by
  intro hd
  unfold strEndsWith at hq hd
  rcases List.suffix_or_suffix_of_suffix hq hd with h | h <;> cases dw <;> revert h <;> decide

/-- Reduction of `create_table` for a non-abstract model: the optional
keyspace creation happens first (it never changes the column-family or
index metadata, so the later existence checks read the same snapshots as
on the input state), then the CREATE TABLE branch, then the index pass. -/
theorem create_table_spec (m : Model) (st : ClusterState) (cr : Option String)
    (cmk : Bool) (hab : m.abstract = false) :
    create_table m st cr cmk =
      (fun (p : ClusterState × List String) =>
        if m.raw_cf_name ∈ ksTables st m.keyspace then
          finish_index_pass m p.1 p.2
        else
          match cr with
          | none => finish_index_pass m
              { p.1 with columnFamilies := p.1.columnFamilies ++ [(m.keyspace, m.raw_cf_name)] }
              (p.2 ++ [createTableStatement m])
          | some msg =>
            if strContains msg "Cannot add already existing column family" then
              finish_index_pass m p.1 (p.2 ++ [createTableStatement m])
            else
              { state := p.1, issued := p.2 ++ [createTableStatement m], err := some msg })
        (if cmk then create_keyspace_defaults st m.keyspace else (st, [])) := by
  unfold create_table
  rw [hab]
  cases cmk with
  | false => rfl
  | true =>
    simp only [if_true, Bool.false_eq_true, if_false]
    have hks : ksTables (create_keyspace_defaults st m.keyspace).1 m.keyspace =
        ksTables st m.keyspace :=
      ksTables_congr m.keyspace
        (columnFamilies_create_keyspace st m.keyspace "SimpleStrategy" 3 true [])
    rw [hks]

/-- C5: whenever create_keyspace issues a CREATE KEYSPACE statement (the
name is absent), that statement ends with the AND DURABLE_WRITES clause
exactly when the strategy class differs from the default SimpleStrategy. -/
theorem create_keyspace_durable_writes (st : ClusterState) (name sc : String) (rf : Int)
    (dw : Bool) (extras : List (String × JsonVal)) (h : name ∉ st.keyspaces) :
    (create_keyspace st name sc rf dw extras).2 = [ck_query name sc rf dw extras] ∧
    (strEndsWith (ck_query name sc rf dw extras)
        (" AND DURABLE_WRITES = " ++ (if dw then "true" else "false")) ↔
      sc ≠ "SimpleStrategy") := by
  refine ⟨by rw [create_keyspace_not_mem st name sc rf dw extras h], ?_⟩
  by_cases hsc : sc = "SimpleStrategy"
  · subst hsc
    simp only [ne_eq, not_true_eq_false, iff_false]
    exact not_durable_of_tail (ck_query_simple_tail name rf dw extras) dw
  · simp only [ne_eq, hsc, not_false_eq_true, iff_true]
    rw [ck_query_other name sc rf dw extras hsc]
    exact strEndsWith_append _ _

/-- Witness for C5: a default call omits the clause, a
NetworkTopologyStrategy call ends with it. -/
theorem create_keyspace_durable_writes_witness :
    (¬ strEndsWith (ck_query "k" "SimpleStrategy" 3 true [])
        (" AND DURABLE_WRITES = " ++ (if true then "true" else "false"))) ∧
    strEndsWith (ck_query "k" "NetworkTopologyStrategy" 3 true [])
        (" AND DURABLE_WRITES = " ++ (if true then "true" else "false")) := by
  constructor
  · intro hend
    exact absurd
      ((create_keyspace_durable_writes emptyCluster "k" "SimpleStrategy" 3 true []
        (by decide)).2.mp hend) (by decide)
  · exact (create_keyspace_durable_writes emptyCluster "k" "NetworkTopologyStrategy" 3 true []
      (by decide)).2.mpr (by decide)

/-- C10: when create_table is called with create_missing_keyspace true on a
non-abstract model whose keyspace is missing, the first issued statement
is the CREATE KEYSPACE statement with the default settings only
(SimpleStrategy, replication factor 3, no extra options) and it carries
no DURABLE_WRITES clause. -/
theorem create_table_missing_keyspace_defaults (m : Model) (st : ClusterState)
    (cr : Option String) (hab : m.abstract = false) (hks : m.keyspace ∉ st.keyspaces) :
    (create_table m st cr true).issued.head? =
      some (ck_query m.keyspace "SimpleStrategy" 3 true []) ∧
    ck_query m.keyspace "SimpleStrategy" 3 true [] =
      "\n            CREATE KEYSPACE " ++ m.keyspace
        ++ "\n            WITH REPLICATION = \x7b\x27class\x27: \x27SimpleStrategy\x27, \x27replication_factor\x27: 3\x7d\n            " ∧
    ¬ strEndsWith (ck_query m.keyspace "SimpleStrategy" 3 true [])
        " AND DURABLE_WRITES = true" ∧
    ¬ strEndsWith (ck_query m.keyspace "SimpleStrategy" 3 true [])
        " AND DURABLE_WRITES = false" := by
  refine ⟨?_, ?_, ?_, ?_⟩
  · rw [create_table_spec m st cr true hab]
    simp only [if_true]
    rw [show create_keyspace_defaults st m.keyspace =
        ({ st with keyspaces := st.keyspaces ++ [m.keyspace] },
         [ck_query m.keyspace "SimpleStrategy" 3 true []]) from
      create_keyspace_not_mem st m.keyspace "SimpleStrategy" 3 true [] hks]
    by_cases htab : m.raw_cf_name ∈ ksTables st m.keyspace
    · simp [htab, finish_index_pass]
    · cases cr with
      | none => simp [htab, finish_index_pass]
      | some msg =>
        by_cases hmsg : strContains msg "Cannot add already existing column family"
        · simp [htab, hmsg, finish_index_pass]
        · simp [htab, hmsg]
  · rw [ck_query_simple]
    apply strExt
    simp only [strData_append, List.append_assoc]
    congr 2
  · exact not_durable_of_tail (q := ck_query m.keyspace "SimpleStrategy" 3 true [])
      (ck_query_simple_tail m.keyspace 3 true []) true
  · exact not_durable_of_tail (q := ck_query m.keyspace "SimpleStrategy" 3 true [])
      (ck_query_simple_tail m.keyspace 3 true []) false

theorem dictUpdate_cons (m : List (String × JsonVal)) (q : String × JsonVal)
    (rest : List (String × JsonVal)) :
    dictUpdate m (q :: rest) = dictUpdate (dictInsert m q.1 q.2) rest := rfl

theorem dictGet_dictInsert_self (m : List (String × JsonVal)) (k : String) (v : JsonVal) :
    dictGet (dictInsert m k v) k = some v := by
  unfold dictInsert
  by_cases h : m.any (fun p => decide (p.1 = k))
  · rw [if_pos h]
    unfold dictGet
    induction m with
    | nil => simp at h
    | cons p rest ih =>
      by_cases hp : p.1 = k
      · simp [hp]
      · simp [hp] at h
        simp only [List.map_cons, if_neg hp]
        rw [List.find?_cons_of_neg _ (by simpa using hp)]
        exact ih (by simpa using h)
  · rw [if_neg h]
    unfold dictGet
    induction m with
    | nil => simp
    | cons p rest ih =>
      simp only [List.any_cons, Bool.or_eq_true, not_or] at h
      have hp : ¬(p.1 = k) := by simpa using h.1
      simp only [List.cons_append]
      rw [List.find?_cons_of_neg _ (by simpa using hp)]
      exact ih (by simpa using h.2)

theorem dictGet_dictInsert_ne (m : List (String × JsonVal)) (k j : String) (v : JsonVal)
    (hne : j ≠ k) : dictGet (dictInsert m k v) j = dictGet m j := by
  unfold dictInsert
  by_cases h : m.any (fun p => decide (p.1 = k))
  · rw [if_pos h]
    unfold dictGet
    clear h
    induction m with
    | nil => rfl
    | cons p rest ih =>
      by_cases hp : p.1 = k
      · have hj : ¬(p.1 = j) := by rw [hp]; exact fun hk => hne hk.symm
        simp only [List.map_cons, if_pos hp]
        rw [List.find?_cons_of_neg _ (by simpa using fun hk : k = j => hne hk.symm),
          List.find?_cons_of_neg _ (by simpa using hj)]
        exact ih
      · simp only [List.map_cons, if_neg hp]
        by_cases hj : p.1 = j
        · rw [List.find?_cons_of_pos _ (by simpa using hj),
            List.find?_cons_of_pos _ (by simpa using hj)]
        · rw [List.find?_cons_of_neg _ (by simpa using hj),
            List.find?_cons_of_neg _ (by simpa using hj)]
          exact ih
  · rw [if_neg h]
    unfold dictGet
    clear h
    induction m with
    | nil =>
      simp only [List.nil_append]
      rw [List.find?_cons_of_neg _ (by simpa using fun hk : k = j => hne hk.symm)]
    | cons p rest ih =>
      simp only [List.cons_append]
      by_cases hj : p.1 = j
      · rw [List.find?_cons_of_pos _ (by simpa using hj),
          List.find?_cons_of_pos _ (by simpa using hj)]
      · rw [List.find?_cons_of_neg _ (by simpa using hj),
          List.find?_cons_of_neg _ (by simpa using hj)]
        exact ih

theorem dictGet_dictUpdate_not_mem (m extras : List (String × JsonVal)) (k : String)
    (h : k ∉ extras.map Prod.fst) :
    dictGet (dictUpdate m extras) k = dictGet m k := by
  induction extras generalizing m with
  | nil => rfl
  | cons q rest ih =>
    simp only [List.map_cons, List.mem_cons, not_or] at h
    rw [dictUpdate_cons, ih _ h.2]
    exact dictGet_dictInsert_ne m q.1 k q.2 h.1

theorem dictGet_dictUpdate_mem (m extras : List (String × JsonVal))
    (hnd : (extras.map Prod.fst).Nodup) (p : String × JsonVal) (hp : p ∈ extras) :
    dictGet (dictUpdate m extras) p.1 = some p.2 := by
  induction extras generalizing m with
  | nil => cases hp
  | cons q rest ih =>
    rw [dictUpdate_cons]
    rcases List.mem_cons.mp hp with heq | hmem
    · subst heq
      have hq : p.1 ∉ rest.map Prod.fst := by
        simpa using (List.nodup_cons.mp hnd).1
      rw [dictGet_dictUpdate_not_mem _ _ _ hq]
      exact dictGet_dictInsert_self m p.1 p.2
    · exact ih (dictInsert m q.1 q.2) (List.nodup_cons.mp hnd).2 hmem

/-- C6: with duplicate-free extra replication options, the replication map
holds the strategy class under class and the factor under
replication_factor unless an extra overrides them, and holds every extra
key/value pair. -/
theorem replication_map_merge (sc : String) (rf : Int) (extras : List (String × JsonVal))
    (hnd : (extras.map Prod.fst).Nodup) :
    (∀ p ∈ extras, dictGet (replication_map sc rf extras) p.1 = some p.2) ∧
    ("class" ∉ extras.map Prod.fst →
      dictGet (replication_map sc rf extras) "class" = some (JsonVal.str sc)) ∧
    ("replication_factor" ∉ extras.map Prod.fst →
      dictGet (replication_map sc rf extras) "replication_factor" = some (JsonVal.num rf)) := by
  refine ⟨fun p hp => dictGet_dictUpdate_mem _ _ hnd p hp, fun h => ?_, fun h => ?_⟩
  · rw [replication_map, dictGet_dictUpdate_not_mem _ _ _ h]
    rfl
  · rw [replication_map, dictGet_dictUpdate_not_mem _ _ _ h]
    rfl

/-- Witness for C6 at the spec's NetworkTopologyStrategy example with
dc1 = 3 and dc2 = 2. -/
theorem replication_map_merge_witness :
    dictGet (replication_map "NetworkTopologyStrategy" 3
        [("dc1", JsonVal.num 3), ("dc2", JsonVal.num 2)]) "dc1" = some (JsonVal.num 3) ∧
    dictGet (replication_map "NetworkTopologyStrategy" 3
        [("dc1", JsonVal.num 3), ("dc2", JsonVal.num 2)]) "dc2" = some (JsonVal.num 2) ∧
    dictGet (replication_map "NetworkTopologyStrategy" 3
        [("dc1", JsonVal.num 3), ("dc2", JsonVal.num 2)]) "class" =
      some (JsonVal.str "NetworkTopologyStrategy") := by
  have h := replication_map_merge "NetworkTopologyStrategy" 3
    [("dc1", JsonVal.num 3), ("dc2", JsonVal.num 2)] (by decide)
  exact ⟨h.1 ("dc1", JsonVal.num 3) (by decide), h.1 ("dc2", JsonVal.num 2) (by decide),
    h.2.1 (by decide)⟩

/-- Witness for C10 at the concrete users model against an empty cluster. -/
theorem create_table_missing_keyspace_defaults_witness :
    (create_table usersModel emptyCluster none true).issued.head? =
      some (ck_query usersModel.keyspace "SimpleStrategy" 3 true []) ∧
    ck_query usersModel.keyspace "SimpleStrategy" 3 true [] =
      "\n            CREATE KEYSPACE " ++ usersModel.keyspace
        ++ "\n            WITH REPLICATION = \x7b\x27class\x27: \x27SimpleStrategy\x27, \x27replication_factor\x27: 3\x7d\n            " ∧
    ¬ strEndsWith (ck_query usersModel.keyspace "SimpleStrategy" 3 true [])
        " AND DURABLE_WRITES = true" ∧
    ¬ strEndsWith (ck_query usersModel.keyspace "SimpleStrategy" 3 true [])
        " AND DURABLE_WRITES = false" :=
  create_table_missing_keyspace_defaults usersModel emptyCluster none (by rfl) (by decide)

theorem finish_index_pass_issued (m : Model) (s : ClusterState) (t : List String) :
    (finish_index_pass m s t).issued = t ++ index_statements m (ksIndexNames s m.keyspace) := rfl

theorem finish_index_pass_err (m : Model) (s : ClusterState) (t : List String) :
    (finish_index_pass m s t).err = none := rfl

theorem ksIndexNames_pre (st : ClusterState) (ks : String) (cmk : Bool) :
    ksIndexNames (if cmk then (create_keyspace_defaults st ks).1 else st) ks =
      ksIndexNames st ks := by
  cases cmk with
  | false => rfl
  | true =>
    simp only [if_true]
    exact ksIndexNames_congr ks (indexInfo_create_keyspace st ks "SimpleStrategy" 3 true [])

theorem create_table_swallow (m : Model) (st : ClusterState) (cmk : Bool) (msg : String)
    (hab : m.abstract = false) (habs : m.raw_cf_name ∉ ksTables st m.keyspace)
    (hmsg : strContains msg "Cannot add already existing column family") :
    create_table m st (some msg) cmk =
      finish_index_pass m (if cmk then (create_keyspace_defaults st m.keyspace).1 else st)
        ((if cmk then (create_keyspace_defaults st m.keyspace).2 else [])
          ++ [createTableStatement m]) := by
  rw [create_table_spec m st (some msg) cmk hab]
  cases cmk with
  | false =>
    simp only [Bool.false_eq_true, if_false]
    rw [if_neg habs, if_pos hmsg]
  | true =>
    simp only [if_true]
    rw [if_neg habs, if_pos hmsg]

theorem create_table_raise (m : Model) (st : ClusterState) (cmk : Bool) (msg : String)
    (hab : m.abstract = false) (habs : m.raw_cf_name ∉ ksTables st m.keyspace)
    (hmsg : ¬ strContains msg "Cannot add already existing column family") :
    create_table m st (some msg) cmk =
      { state := if cmk then (create_keyspace_defaults st m.keyspace).1 else st,
        issued := (if cmk then (create_keyspace_defaults st m.keyspace).2 else [])
          ++ [createTableStatement m],
        err := some msg } := by
  rw [create_table_spec m st (some msg) cmk hab]
  cases cmk with
  | false =>
    simp only [Bool.false_eq_true, if_false]
    rw [if_neg habs, if_neg hmsg]
  | true =>
    simp only [if_true]
    rw [if_neg habs, if_neg hmsg]

theorem create_table_success (m : Model) (st : ClusterState) (cmk : Bool)
    (hab : m.abstract = false) (habs : m.raw_cf_name ∉ ksTables st m.keyspace) :
    create_table m st none cmk =
      finish_index_pass m
        { (if cmk then (create_keyspace_defaults st m.keyspace).1 else st) with
          columnFamilies :=
            (if cmk then (create_keyspace_defaults st m.keyspace).1 else st).columnFamilies
              ++ [(m.keyspace, m.raw_cf_name)] }
        ((if cmk then (create_keyspace_defaults st m.keyspace).2 else [])
          ++ [createTableStatement m]) := by
  rw [create_table_spec m st none cmk hab]
  cases cmk with
  | false =>
    simp only [Bool.false_eq_true, if_false]
    rw [if_neg habs]
  | true =>
    simp only [if_true]
    rw [if_neg habs]

/-- C3: for a non-abstract model whose table is absent, a CREATE TABLE
execution failure whose message contains the already-exists text is
swallowed — the call raises nothing and still performs the index pass
(its statements are the tail of the issued trace) — while any other
failure message is re-raised as the call's error. -/
theorem create_table_race_handling (m : Model) (st : ClusterState) (cmk : Bool)
    (msg : String) (hab : m.abstract = false)
    (habs : m.raw_cf_name ∉ ksTables st m.keyspace) :
    (strContains msg "Cannot add already existing column family" →
      (create_table m st (some msg) cmk).err = none ∧
      index_statements m (ksIndexNames st m.keyspace) <:+
        (create_table m st (some msg) cmk).issued) ∧
    (¬ strContains msg "Cannot add already existing column family" →
      (create_table m st (some msg) cmk).err = some msg) := by
  constructor
  · intro hmsg
    rw [create_table_swallow m st cmk msg hab habs hmsg]
    refine ⟨finish_index_pass_err m _ _, ?_⟩
    rw [finish_index_pass_issued, ksIndexNames_pre st m.keyspace cmk]
    exact List.suffix_append _ _
  · intro hmsg
    rw [create_table_raise m st cmk msg hab habs hmsg]

/-- Witness for C3: the already-exists message is swallowed, an unrelated
message is re-raised. -/
theorem create_table_race_handling_witness :
    ((create_table usersModel emptyCluster
        (some "Cannot add already existing column family") true).err = none ∧
      index_statements usersModel (ksIndexNames emptyCluster usersModel.keyspace) <:+
        (create_table usersModel emptyCluster
          (some "Cannot add already existing column family") true).issued) ∧
    (create_table usersModel emptyCluster (some "Bad Request") true).err =
      some "Bad Request" := by
  constructor
  · exact (create_table_race_handling usersModel emptyCluster true
      "Cannot add already existing column family" (by rfl) (by decide)).1 (by decide)
  · exact (create_table_race_handling usersModel emptyCluster true
      "Bad Request" (by rfl) (by decide)).2 (by decide)

set_option maxRecDepth 100000 in
/-- C4 counterexample: the users model declares clustering keys whose orders
are all unset (default ascending), yet the composed CREATE TABLE statement
does contain a clustering-order clause — contradicting the claim that a
model whose clustering keys all use the default order emits none. -/
theorem clustering_order_clause_counterexample :
    (∀ c ∈ usersModel.clustering_keys, c.clustering_order = none) ∧
    usersModel.clustering_keys ≠ [] ∧
    strContains (createTableStatement usersModel)
      " AND clustering order by (ck1 ASC, ck2 ASC)" := by
  refine ⟨by decide, by decide, by decide⟩

/-- C4 (amended): the composed CREATE TABLE statement always carries the
WITH read_repair_chance clause, and carries the AND clustering order by
clause exactly when the model has at least one clustering key — not only
when some clustering key declares a non-default order (unset orders are
rendered as ASC). -/
theorem strData_empty : ("" : String).data = [] := rfl

theorem createTableStatement_with_clauses (m : Model) :
    createTableStatement m =
      "CREATE TABLE " ++ m.cf_name ++ " ("
        ++ joinSep ", " ((m.columns.map (fun c => c.column_def)) ++ [primaryKeyClause m])
        ++ ") WITH " ++ ("read_repair_chance = " ++ m.read_repair_chance)
        ++ (if m.clustering_keys.isEmpty then ""
            else " AND " ++ ("clustering order by ("
              ++ joinSep ", " (clusteringOrderTerms m) ++ ")")) := by
  unfold createTableStatement with_qs
  cases hck : m.clustering_keys with
  | nil =>
    have hterms : clusteringOrderTerms m = [] := by
      unfold clusteringOrderTerms
      rw [hck]
      rfl
    rw [hterms]
    apply strExt
    simp [strData_append, strData_empty, joinSep]
  | cons c rest =>
    have hterms : clusteringOrderTerms m =
        (c.db_field_name ++ " " ++ orAsc c.clustering_order) ::
          rest.map (fun x => x.db_field_name ++ " " ++ orAsc x.clustering_order) := by
      unfold clusteringOrderTerms
      rw [hck, List.map_cons]
    rw [hterms]
    apply strExt
    simp [strData_append, joinSep]

theorem build_keys_go (cols : List Column) (a b : List String) :
    cols.foldl
      (fun acc col =>
        if col.primary_key then
          if col.partition_key then
            (acc.1 ++ ["\x22" ++ col.db_field_name ++ "\x22"], acc.2)
          else
            (acc.1, acc.2 ++ ["\x22" ++ col.db_field_name ++ "\x22"])
        else acc)
      (a, b) =
    (a ++ (cols.filter (fun c => c.primary_key && c.partition_key)).map
        (fun c => "\x22" ++ c.db_field_name ++ "\x22"),
     b ++ (cols.filter (fun c => c.primary_key && !c.partition_key)).map
        (fun c => "\x22" ++ c.db_field_name ++ "\x22")) := by
  induction cols generalizing a b with
  | nil => simp
  | cons c rest ih =>
    rw [List.foldl_cons]
    by_cases hpk : c.primary_key
    · by_cases hpart : c.partition_key
      · simp [hpk, hpart, ih, List.filter_cons, List.append_assoc]
      · simp [hpk, hpart, ih, List.filter_cons, List.append_assoc]
    · simp [hpk, ih, List.filter_cons]

theorem build_keys_eq (cols : List Column) :
    build_keys cols =
      ((cols.filter (fun c => c.primary_key && c.partition_key)).map
         (fun c => "\x22" ++ c.db_field_name ++ "\x22"),
       (cols.filter (fun c => c.primary_key && !c.partition_key)).map
         (fun c => "\x22" ++ c.db_field_name ++ "\x22")) := by
  unfold build_keys
  simpa using build_keys_go cols [] []

theorem primaryKeyClause_eq_spec (m : Model) :
    primaryKeyClause m = specPrimaryKeyClause m := by
  unfold primaryKeyClause specPrimaryKeyClause
  rw [build_keys_eq]

set_option maxRecDepth 200000 in
/-- C1 counterexample: at the users model (partition key pk1, clustering
keys ck1 then ck2) the issued CREATE TABLE statement does not contain the
claim's literal clause PRIMARY KEY ((pk1), ck1, ck2); the emitted clause
double-quotes every column name. -/
theorem primary_key_literal_counterexample :
    createTableStatement usersModel ∈
      (create_table usersModel emptyCluster none true).issued ∧
    ¬ strContains (createTableStatement usersModel) "PRIMARY KEY ((pk1), ck1, ck2)" ∧
    strContains (createTableStatement usersModel)
      "PRIMARY KEY ((\x22pk1\x22), \x22ck1\x22, \x22ck2\x22)" := by
  refine ⟨by decide, by decide, by decide⟩

/-- C1 (amended): for every non-abstract model whose bare table name is
absent from the column-family metadata, create_table issues the composed
CREATE TABLE statement, and that statement contains the PRIMARY KEY
clause listing the partition-key columns first, in declaration order, as
a parenthesized tuple, followed by the clustering-key columns in
declaration order, with every column name double-quoted. -/
theorem create_table_primary_key_clause (m : Model) (st : ClusterState) (cmk : Bool)
    (hab : m.abstract = false) (habs : m.raw_cf_name ∉ ksTables st m.keyspace) :
    createTableStatement m ∈ (create_table m st none cmk).issued ∧
    strContains (createTableStatement m) (specPrimaryKeyClause m) := by
  constructor
  · rw [create_table_success m st cmk hab habs, finish_index_pass_issued]
    simp
  · rw [← primaryKeyClause_eq_spec]
    unfold createTableStatement
    cases hdefs : m.columns.map (fun c => c.column_def) with
    | nil =>
      refine strContains_of_data
        ("CREATE TABLE ".data ++ m.cf_name.data ++ " (".data)
        (") WITH ".data ++ (joinSep " AND " (with_qs m)).data) ?_
      simp [strData_append, joinSep, List.append_assoc]
    | cons d ds =>
      refine strContains_of_data
        ("CREATE TABLE ".data ++ m.cf_name.data ++ " (".data
          ++ (joinSep ", " (d :: ds)).data ++ ", ".data)
        (") WITH ".data ++ (joinSep " AND " (with_qs m)).data) ?_
      show ("CREATE TABLE " ++ m.cf_name ++ " ("
          ++ joinSep ", " ((d :: ds) ++ [primaryKeyClause m]) ++ ") WITH "
          ++ joinSep " AND " (with_qs m)).data = _
      rw [joinSep_append_single]
      simp only [List.isEmpty_cons, Bool.false_eq_true, if_false]
      simp [strData_append, List.append_assoc]

/-- Witness for the amended C1 at the users model against an empty cluster. -/
theorem create_table_primary_key_clause_witness :
    createTableStatement usersModel ∈
      (create_table usersModel emptyCluster none true).issued ∧
    strContains (createTableStatement usersModel) (specPrimaryKeyClause usersModel) :=
  create_table_primary_key_clause usersModel emptyCluster true (by rfl) (by decide)

theorem createIndexStatement_data (m : Model) (c : Column) :
    (createIndexStatement m c).data =
      ("CREATE INDEX ".data ++ "index_".data ++ m.raw_cf_name.data ++ "_".data)
        ++ c.db_field_name.data
        ++ ((" ON ".data ++ m.cf_name.data ++ " (\x22".data)
          ++ c.db_field_name.data ++ "\x22)".data) := by
  unfold createIndexStatement indexName
  simp [strData_append, List.append_assoc]

theorem mid_inj {A B C f g : List Char}
    (h : A ++ f ++ (B ++ f ++ C) = A ++ g ++ (B ++ g ++ C)) : f = g := by
  have hlen : f.length = g.length := by
    have hl := congrArg List.length h
    simp only [List.length_append] at hl
    omega
  rw [List.append_assoc A f, List.append_assoc A g] at h
  exact List.append_inj_left (List.append_cancel_left h) hlen

theorem createIndexStatement_inj (m : Model) {c q : Column}
    (h : createIndexStatement m c = createIndexStatement m q) :
    c.db_field_name = q.db_field_name := by
  have hd := congrArg String.data h
  rw [createIndexStatement_data, createIndexStatement_data] at hd
  exact strExt (mid_inj hd)

theorem indexName_congr (m : Model) {c q : Column}
    (h : c.db_field_name = q.db_field_name) : indexName m c = indexName m q := by
  unfold indexName
  rw [h]

theorem createIndexStatement_ne_ck (m : Model) (c : Column) (n sc : String) (rf : Int)
    (dw : Bool) (ex : List (String × JsonVal)) :
    createIndexStatement m c ≠ ck_query n sc rf dw ex := by
  intro he
  have hL : ((createIndexStatement m c).data).head? = some (Char.ofNat 67) := by
    rw [createIndexStatement_data]
    rfl
  have hR : ((ck_query n sc rf dw ex).data).head? = some (Char.ofNat 10) := by
    unfold ck_query
    split <;> simp only [strData_append, List.append_assoc] <;> rfl
  rw [he, hR] at hL
  cases hL

theorem createIndexStatement_ne_cts (m m2 : Model) (c : Column) :
    createIndexStatement m c ≠ createTableStatement m2 := by
  intro he
  have hd := congrArg String.data he
  rw [createIndexStatement_data] at hd
  unfold createTableStatement at hd
  simp only [strData_append, List.append_assoc] at hd
  have hpre := List.append_inj_left hd (by decide)
  exact absurd hpre (by decide)

theorem mem_index_statements (m : Model) (idx : List String) {c : Column}
    (hc : c ∈ m.columns) (hidx : c.index = true)
    (hskip : (m.raw_cf_name ++ "." ++ indexName m c) ∉ idx) :
    createIndexStatement m c ∈ index_statements m idx := by
  unfold index_statements
  apply List.mem_filterMap.mpr
  exact ⟨c, List.mem_filter.mpr ⟨hc, by simp [hidx]⟩, by rw [if_neg hskip]⟩

theorem not_mem_index_statements (m : Model) (idx : List String) {c : Column}
    (hmem : (m.raw_cf_name ++ "." ++ indexName m c) ∈ idx) :
    createIndexStatement m c ∉ index_statements m idx := by
  intro hin
  unfold index_statements at hin
  rcases List.mem_filterMap.mp hin with ⟨q, hqmem, hq⟩
  by_cases hqual : (m.raw_cf_name ++ "." ++ indexName m q) ∈ idx
  · rw [if_pos hqual] at hq
    cases hq
  · rw [if_neg hqual] at hq
    have heq : createIndexStatement m q = createIndexStatement m c := Option.some.inj hq
    have hf : q.db_field_name = c.db_field_name := createIndexStatement_inj m heq
    rw [indexName_congr m hf] at hqual
    exact hqual hmem

theorem mem_create_keyspace_trace {st : ClusterState} {n sc : String} {rf : Int}
    {dw : Bool} {ex : List (String × JsonVal)} {s : String}
    (h : s ∈ (create_keyspace st n sc rf dw ex).2) : s = ck_query n sc rf dw ex := by
  unfold create_keyspace at h
  split at h
  · cases h
  · simpa using h

theorem ksIndexNames_set_cf (x : ClusterState) (y : List (String × String)) (ks : String) :
    ksIndexNames { x with columnFamilies := y } ks = ksIndexNames x ks := rfl

theorem create_table_exists (m : Model) (st : ClusterState) (cmk : Bool) (cr : Option String)
    (hab : m.abstract = false) (htab : m.raw_cf_name ∈ ksTables st m.keyspace) :
    create_table m st cr cmk =
      finish_index_pass m (if cmk then (create_keyspace_defaults st m.keyspace).1 else st)
        (if cmk then (create_keyspace_defaults st m.keyspace).2 else []) := by
  rw [create_table_spec m st cr cmk hab]
  cases cmk with
  | false =>
    simp only [Bool.false_eq_true, if_false]
    rw [if_pos htab]
  | true =>
    simp only [if_true]
    rw [if_pos htab]

/-- C7: for every column flagged indexed, the index name is computed
deterministically as index_<bare table name>_<column field name>; no
CREATE INDEX statement for that column is issued when the qualified name
<bare table name>.<index name> already appears in the index-name
metadata snapshot, and otherwise the exact statement
CREATE INDEX <index name> ON <fully-qualified table> ("<column>") is
issued. -/
theorem create_table_index_pass (m : Model) (st : ClusterState) (cmk : Bool)
    (hab : m.abstract = false) :
    ∀ c ∈ m.columns, c.index = true →
      indexName m c = "index_" ++ m.raw_cf_name ++ "_" ++ c.db_field_name ∧
      createIndexStatement m c =
        "CREATE INDEX " ++ indexName m c ++ " ON " ++ m.cf_name
          ++ " (\x22" ++ c.db_field_name ++ "\x22)" ∧
      ((m.raw_cf_name ++ "." ++ indexName m c) ∈ ksIndexNames st m.keyspace →
        createIndexStatement m c ∉ (create_table m st none cmk).issued) ∧
      ((m.raw_cf_name ++ "." ++ indexName m c) ∉ ksIndexNames st m.keyspace →
        createIndexStatement m c ∈ (create_table m st none cmk).issued) := by
  have hidx1 : ksIndexNames (if cmk then (create_keyspace_defaults st m.keyspace).1 else st)
      m.keyspace = ksIndexNames st m.keyspace := ksIndexNames_pre st m.keyspace cmk
  have hrepr : ∃ T, (create_table m st none cmk).issued =
      T ++ index_statements m (ksIndexNames st m.keyspace) ∧
      ∀ s ∈ T, s = ck_query m.keyspace "SimpleStrategy" 3 true [] ∨
        s = createTableStatement m := by
    by_cases htab : m.raw_cf_name ∈ ksTables st m.keyspace
    · refine ⟨(if cmk then (create_keyspace_defaults st m.keyspace).2 else []), ?_, ?_⟩
      · rw [create_table_exists m st cmk none hab htab, finish_index_pass_issued, hidx1]
      · intro s hs
        cases cmk with
        | false => simp at hs
        | true =>
          rw [if_pos rfl] at hs
          exact Or.inl (mem_create_keyspace_trace hs)
    · refine ⟨(if cmk then (create_keyspace_defaults st m.keyspace).2 else [])
        ++ [createTableStatement m], ?_, ?_⟩
      · rw [create_table_success m st cmk hab htab, finish_index_pass_issued,
          ksIndexNames_set_cf, hidx1]
      · intro s hs
        rcases List.mem_append.mp hs with h0 | hcts
        · cases cmk with
          | false => simp at h0
          | true =>
            rw [if_pos rfl] at h0
            exact Or.inl (mem_create_keyspace_trace h0)
        · exact Or.inr (by simpa using hcts)
  intro c hc hidx
  refine ⟨rfl, rfl, ?_, ?_⟩
  · intro hqual hin
    rcases hrepr with ⟨T, hT, hTmem⟩
    rw [hT] at hin
    rcases List.mem_append.mp hin with hin0 | hin1
    · rcases hTmem _ hin0 with hck | hcts
      · exact createIndexStatement_ne_ck m c m.keyspace "SimpleStrategy" 3 true [] hck
      · exact createIndexStatement_ne_cts m m c hcts
    · exact not_mem_index_statements m _ hqual hin1
  · intro hqual
    rcases hrepr with ⟨T, hT, _⟩
    rw [hT]
    exact List.mem_append.mpr (Or.inr (mem_index_statements m _ hc hidx hqual))

set_option maxRecDepth 200000 in
/-- Witness for C7: with the index absent the CREATE INDEX statement for
the indexed val column is issued; with it present in the metadata
snapshot it is not. -/
theorem create_table_index_pass_witness :
    (createIndexStatement usersModel valCol ∈
      (create_table usersModel emptyCluster none true).issued) ∧
    (createIndexStatement usersModel valCol ∉
      (create_table usersModel
        { keyspaces := ["ks"], columnFamilies := [("ks", "users")],
          indexInfo := [("ks", "users.index_users_val")] } none true).issued) := by
  constructor
  · exact (create_table_index_pass usersModel emptyCluster true (by rfl) valCol
      (by decide) (by rfl)).2.2.2 (by decide)
  · exact (create_table_index_pass usersModel
      { keyspaces := ["ks"], columnFamilies := [("ks", "users")],
        indexInfo := [("ks", "users.index_users_val")] } true (by rfl) valCol
      (by decide) (by rfl)).2.2.1 (by decide)
